import Mathlib

/-!
Shallow embedding of the x-ray-system backend core: the relational store
(runs, steps, step_summaries, candidates tables), the idempotent write
protocol (`createRun`, `ensureRunExists`, `updateRun`, `createStep`,
`ensureStepExists`, `updateStepSummary`, `createCandidate`,
`createCandidatesBulk`), the queue job processors, the step-creation
route validation, and the cross-pipeline high-rejection query.

Tables are modelled as association lists keyed by identifier strings.
SQL `INSERT ... ON CONFLICT DO UPDATE / DO NOTHING` becomes explicit
insert-or-merge on the association list; foreign-key and CHECK
constraints of the schema are modelled as explicit guards that return a
`DbErr`; a failed statement leaves the store unchanged, and the bulk
candidate write wraps its statements in a transaction (rollback on
failure).  Opaque JSON payloads (run input, step metadata, breakdown
values) are modelled one structural level deep, which is faithful
because the core never inspects them beyond JS truthiness and `typeof`
checks; numbers are integers; timestamps are opaque strings; `NOW()` is
passed in explicitly.  DB-side bookkeeping columns (`created_at`,
`updated_at`) that no modelled operation reads are omitted.
-/

namespace XRay

/-- A scalar JSON value (used for rejection-breakdown entries, whose
only inspection in the source is `typeof value === 'number'`). -/
inductive JsonPrim where
  | pnull : JsonPrim
  | pbool (b : Bool) : JsonPrim
  | pnum (n : Int) : JsonPrim
  | pstr (s : String) : JsonPrim
deriving DecidableEq, Repr

/-- An opaque JSON-like payload (run input, step metadata), one
structural level deep: the core stores and returns these verbatim. -/
inductive JsonVal where
  | prim (p : JsonPrim) : JsonVal
  | jarr (elems : List JsonPrim) : JsonVal
  | jobj (fields : List (String × JsonPrim)) : JsonVal
deriving DecidableEq, Repr

/-- JavaScript truthiness of a JSON value (objects and arrays are always
truthy; `null`, `false`, `0` and the empty string are falsy). -/
def JsonVal.jsTruthy : JsonVal → Bool
  | .prim .pnull => false
  | .prim (.pbool b) => b
  | .prim (.pnum n) => n != 0
  | .prim (.pstr s) => s != ""
  | .jarr _ => true
  | .jobj _ => true

/-- JS `x || dflt` for an optional string field (absent and empty string
are falsy). -/
def jsStrOr (x : Option String) (dflt : String) : String :=
  match x with
  | some s => if s = "" then dflt else s
  | none => dflt

/-- JS truthiness of an optional string (absent or empty means falsy). -/
def optStrTruthy (x : Option String) : Bool :=
  match x with
  | some s => s != ""
  | none => false

/-- JS `x || 0` for an optional numeric field. -/
def jsNumOr0 (x : Option Int) : Int :=
  match x with
  | some n => n
  | none => 0

/-- A row of the `runs` table (`created_at` omitted).  `status` is a raw
string: the schema puts no CHECK constraint on `runs.status`. -/
structure RunRow where
  pipeline : String
  input : JsonVal
  started_at : String
  ended_at : Option String
  status : String
deriving DecidableEq, Repr

/-- A row of the `steps` table (`created_at` omitted).  `stype` carries
the `type` column, CHECK-constrained to the four step types. -/
structure StepRow where
  run_id : String
  name : String
  stype : String
  input_count : Option Int
  output_count : Option Int
  metadata : JsonVal
deriving DecidableEq, Repr

/-- A row of the `step_summaries` table (`updated_at` omitted). -/
structure SummaryRow where
  rejected : Int
  accepted : Int
  rejection_breakdown : List (String × JsonPrim)
deriving DecidableEq, Repr

/-- A row of the `candidates` table (`created_at` omitted); the
(candidate_id, step_id) key is held by the enclosing association list. -/
structure CandidateRow where
  decision : String
  score : Option Rat
  reason : Option String
deriving DecidableEq, Repr

/-- The persistent store: the four tables, each an association list from
primary key to row. -/
structure Store where
  runs : List (String × RunRow)
  steps : List (String × StepRow)
  step_summaries : List (String × SummaryRow)
  candidates : List ((String × String) × CandidateRow)
deriving DecidableEq, Repr

/-- The empty database. -/
def Store.empty : Store := ⟨[], [], [], []⟩

section Assoc

variable {κ α : Type} [DecidableEq κ]

/-- First row with the given primary key (SQL `SELECT ... WHERE key = k`
on a primary-key column). -/
def alookup (k : κ) : List (κ × α) → Option α
  | [] => none
  | (k', v) :: rest => if k' = k then some v else alookup k rest

/-- Whether a row with the given key exists. -/
def containsKey (k : κ) (l : List (κ × α)) : Bool :=
  (alookup k l).isSome

/-- SQL `UPDATE ... SET ... WHERE key = k`: rewrite every row with key
`k` through `f`, leave the rest untouched. -/
def aupdate (k : κ) (f : α → α) : List (κ × α) → List (κ × α)
  | [] => []
  | (k', v) :: rest =>
      if k' = k then (k', f v) :: aupdate k f rest
      else (k', v) :: aupdate k f rest

/-- SQL `INSERT ... ON CONFLICT (key) DO UPDATE SET ...`: if a row with
the key exists, merge it with `merge` (which receives the existing row);
otherwise append the fresh row. -/
def insertOnConflictUpdate (k : κ) (row : α) (merge : α → α) (l : List (κ × α)) :
    List (κ × α) :=
  if containsKey k l then aupdate k merge l else l ++ [(k, row)]

/-- SQL `INSERT ... ON CONFLICT (key) DO NOTHING`. -/
def insertIfAbsent (k : κ) (row : α) (l : List (κ × α)) : List (κ × α) :=
  if containsKey k l then l else l ++ [(k, row)]

end Assoc

/-- A database statement failure: foreign-key violation or CHECK
constraint violation. -/
inductive DbErr where
  | fkViolation : DbErr
  | checkViolation : DbErr
deriving DecidableEq, Repr

/-- Mirror of the `RunRecord` interface of `models/run.ts`. -/
structure RunRecord where
  run_id : String
  pipeline : String
  input : JsonVal
  started_at : String
  ended_at : Option String
  status : String
deriving DecidableEq, Repr

/-- Mirror of the `StepRecord` interface of the step model. -/
structure StepRecord where
  step_id : String
  run_id : String
  name : String
  stype : String
  input_count : Option Int
  output_count : Option Int
  metadata : JsonVal
deriving DecidableEq, Repr

/-- Mirror of the `StepSummaryRecord` interface of the step model. -/
structure StepSummaryRecord where
  step_id : String
  rejected : Int
  accepted : Int
  rejection_breakdown : List (String × JsonPrim)
deriving DecidableEq, Repr

/-- Mirror of the `CandidateRecord` interface of the candidate model. -/
structure CandidateRecord where
  candidate_id : String
  step_id : String
  decision : String
  score : Option Rat
  reason : Option String
deriving DecidableEq, Repr

/-- The row proposed by `createRun`'s INSERT: the statement supplies no
`ended_at`, so the proposed row's `ended_at` is NULL. -/
def runInsertRow (run : RunRecord) : RunRow :=
  ⟨run.pipeline, run.input, run.started_at, none, run.status⟩

/-- `createRun`'s ON CONFLICT action: `ended_at = EXCLUDED.ended_at`
(NULL, see `runInsertRow`) and `status = EXCLUDED.status`; all other
columns keep their existing values. -/
def runConflictMerge (run : RunRecord) (old : RunRow) : RunRow :=
  { old with ended_at := none, status := run.status }

/-- `createRun` of `models/run.ts`:
`INSERT INTO runs (run_id, pipeline, input, started_at, status) VALUES
($1,$2,$3,$4,$5) ON CONFLICT (run_id) DO UPDATE SET ended_at =
EXCLUDED.ended_at, status = EXCLUDED.status`.  `runs` has no foreign
keys and `runs.status` no CHECK constraint, so the statement never
fails. -/
def createRun (run : RunRecord) (s : Store) : Store :=
  { s with runs := insertOnConflictUpdate run.run_id (runInsertRow run) (runConflictMerge run) s.runs }

/-- The placeholder run inserted by `ensureRunExists`:
`pipeline || 'unknown'`, input `{auto_created: true}`,
`started_at = NOW()`, status `running`. -/
def placeholderRunRow (pipeline : Option String) (now : String) : RunRow :=
  ⟨jsStrOr pipeline "unknown", JsonVal.jobj [("auto_created", JsonPrim.pbool true)], now, none, "running"⟩

/-- `ensureRunExists` of `models/run.ts`: if a run with this id exists,
do nothing; otherwise insert the placeholder run with `ON CONFLICT
(run_id) DO NOTHING`.  Errors are caught and swallowed, and no statement
here can fail, so the operation is total. -/
def ensureRunExists (runId : String) (pipeline : Option String) (now : String)
    (s : Store) : Store :=
  match alookup runId s.runs with
  | some _ => s
  | none => { s with runs := insertIfAbsent runId (placeholderRunRow pipeline now) s.runs }

/-- The SET clause of `updateRun`'s UPDATE: each of `ended_at` and
`status` is written only when the corresponding field of `updates` is
truthy. -/
def runUpdateApply (ended_at status : Option String) (old : RunRow) : RunRow :=
  { old with
    ended_at := if optStrTruthy ended_at then ended_at else old.ended_at,
    status := if optStrTruthy status then status.getD old.status else old.status }

/-- `updateRun` of `models/run.ts`: build an UPDATE from the truthy
fields of `updates` and run `UPDATE runs SET ... WHERE run_id = $n`; if
neither field is truthy, return without touching the store. -/
def updateRun (runId : String) (ended_at : Option String) (status : Option String)
    (s : Store) : Store :=
  if optStrTruthy ended_at = false ∧ optStrTruthy status = false then s
  else { s with runs := aupdate runId (runUpdateApply ended_at status) s.runs }

/-- The four values of the `steps.type` CHECK constraint, also the
enumeration checked by the route and processor validations. -/
def stepTypeValues : List String := ["filter", "rank", "generate", "select"]

/-- SQL `COALESCE(new, old)`. -/
def coalesce (new old : Option Int) : Option Int :=
  match new with
  | some v => some v
  | none => old

/-- The row proposed by `createStep`'s INSERT. -/
def stepInsertRow (step : StepRecord) : StepRow :=
  ⟨step.run_id, step.name, step.stype, step.input_count, step.output_count, step.metadata⟩

/-- `createStep`'s ON CONFLICT action: run reference, name, type and
metadata are overwritten; the counts are coalesced so a known count is
never regressed to NULL. -/
def stepConflictMerge (step : StepRecord) (old : StepRow) : StepRow :=
  ⟨step.run_id, step.name, step.stype, coalesce step.input_count old.input_count,
    coalesce step.output_count old.output_count, step.metadata⟩

/-- `createStep` of the step model:
`INSERT INTO steps ... ON CONFLICT (step_id) DO UPDATE SET run_id =
EXCLUDED.run_id, name = EXCLUDED.name, type = EXCLUDED.type, input_count
= COALESCE(EXCLUDED.input_count, steps.input_count), output_count =
COALESCE(EXCLUDED.output_count, steps.output_count), metadata =
EXCLUDED.metadata`.  The schema's foreign key `steps.run_id REFERENCES
runs` and the CHECK on `steps.type` make the statement fail when the
referenced run is absent or the type is outside the enumeration; a
failed statement leaves the store unchanged. -/
def createStep (step : StepRecord) (s : Store) : Option DbErr × Store :=
  if containsKey step.run_id s.runs = false then (some DbErr.fkViolation, s)
  else if (stepTypeValues.contains step.stype) = false then
    (some DbErr.checkViolation, s)
  else
    (none, { s with steps := insertOnConflictUpdate step.step_id (stepInsertRow step) (stepConflictMerge step) s.steps })

/-- The placeholder step inserted by `ensureStepExists`: name
`auto-created`, type `generate`, metadata `{auto_created: true}`. -/
def placeholderStepRow (runId : String) : StepRow :=
  ⟨runId, "auto-created", "generate", none, none, JsonVal.jobj [("auto_created", JsonPrim.pbool true)]⟩

/-- `ensureStepExists` of the step model: if a step with this id exists,
do nothing; otherwise insert the placeholder step with `ON CONFLICT
(step_id) DO NOTHING`.  A foreign-key failure (the referenced run does
not exist) is caught and swallowed, leaving the store unchanged. -/
def ensureStepExists (stepId runId : String) (s : Store) : Store :=
  match alookup stepId s.steps with
  | some _ => s
  | none =>
      if containsKey runId s.runs then
        { s with steps := insertIfAbsent stepId (placeholderStepRow runId) s.steps }
      else s

/-- The summary row written by `updateStepSummary` (the ON CONFLICT
action replaces all three columns with the excluded row's values). -/
def summaryInsertRow (summary : StepSummaryRecord) : SummaryRow :=
  ⟨summary.rejected, summary.accepted, summary.rejection_breakdown⟩

/-- The SET clause of the steps-table UPDATE in `updateStepSummary`:
only the supplied counts are written. -/
def stepCountsUpdate (inputCount outputCount : Option Int) (old : StepRow) : StepRow :=
  { old with input_count := coalesce inputCount old.input_count,
             output_count := coalesce outputCount old.output_count }

/-- `updateStepSummary` of the step model: first
`INSERT INTO step_summaries ... ON CONFLICT (step_id) DO UPDATE SET
rejected = EXCLUDED.rejected, accepted = EXCLUDED.accepted,
rejection_breakdown = EXCLUDED.rejection_breakdown` (the summary row is
fully replaced); the summary's foreign key to `steps` makes this fail
when the step is absent, aborting before the second statement.  Then, if
an input or output count was supplied, `UPDATE steps SET ... WHERE
step_id = $n` with only the supplied counts. -/
def updateStepSummary (stepId : String) (summary : StepSummaryRecord)
    (inputCount outputCount : Option Int) (s : Store) : Option DbErr × Store :=
  if containsKey stepId s.steps = false then (some DbErr.fkViolation, s)
  else
    let s1 := { s with step_summaries := insertOnConflictUpdate stepId (summaryInsertRow summary) (fun _old => summaryInsertRow summary) s.step_summaries }
    if inputCount.isSome ∨ outputCount.isSome then
      (none, { s1 with steps := aupdate stepId (stepCountsUpdate inputCount outputCount) s1.steps })
    else (none, s1)

/-- The row written by `createCandidate` (and by each statement of the
bulk variant); the ON CONFLICT action replaces decision, score and
reason. -/
def candidateInsertRow (c : CandidateRecord) : CandidateRow :=
  ⟨c.decision, c.score, c.reason⟩

/-- `createCandidate` of the candidate model:
`INSERT INTO candidates ... ON CONFLICT (candidate_id, step_id) DO
UPDATE SET decision = EXCLUDED.decision, score = EXCLUDED.score, reason
= EXCLUDED.reason`.  The foreign key to `steps` and the CHECK on
`decision` make the statement fail accordingly. -/
def createCandidate (c : CandidateRecord) (s : Store) : Option DbErr × Store :=
  if containsKey c.step_id s.steps = false then (some DbErr.fkViolation, s)
  else if c.decision ≠ "accepted" ∧ c.decision ≠ "rejected" then
    (some DbErr.checkViolation, s)
  else
    (none, { s with candidates := insertOnConflictUpdate (c.candidate_id, c.step_id) (candidateInsertRow c) (fun _old => candidateInsertRow c) s.candidates })

/-- The transaction body of `createCandidatesBulk`: insert each
candidate in turn; the first failing statement aborts the loop. -/
def bulkInsertLoop : List CandidateRecord → Store → Option DbErr × Store
  | [], s => (none, s)
  | c :: rest, s =>
      match createCandidate c s with
      | (none, s') => bulkInsertLoop rest s'
      | (some e, _) => (some e, s)

/-- `createCandidatesBulk` of the candidate model: empty input returns
immediately; otherwise all inserts run inside `BEGIN ... COMMIT`, and
any failure rolls the whole batch back to the original store. -/
def createCandidatesBulk (cs : List CandidateRecord) (s : Store) :
    Option DbErr × Store :=
  if cs.isEmpty then (none, s)
  else
    match bulkInsertLoop cs s with
    | (none, s') => (none, s')
    | (some e, _) => (some e, s)

/-- A job-processing failure: the processor's own validation throw, or a
database statement error propagated out of the model layer. -/
inductive JobErr where
  | validationError : JobErr
  | dbError (e : DbErr) : JobErr
deriving DecidableEq, Repr

/-- JS `metadata || {}`: default to the empty object when the metadata
payload is absent or falsy. -/
def jsValOrEmptyObj (m : Option JsonVal) : JsonVal :=
  match m with
  | some v => if v.jsTruthy then v else JsonVal.jobj []
  | none => JsonVal.jobj []

/-- Mirror of `CreateRunJobData` (run processor). -/
structure CreateRunJobData where
  run_id : String
  pipeline : String
  input : JsonVal
  started_at : String
  status : Option String
deriving DecidableEq, Repr

/-- Mirror of `UpdateRunJobData` (run processor). -/
structure UpdateRunJobData where
  run_id : String
  ended_at : Option String
  status : Option String
deriving DecidableEq, Repr

/-- Mirror of `CreateStepJobData` (step processor); `stype` is the
`type` field. -/
structure CreateStepJobData where
  step_id : String
  run_id : String
  name : String
  stype : String
  metadata : Option JsonVal
  pipeline : Option String
deriving DecidableEq, Repr

/-- Mirror of `UpdateStepSummaryJobData` (step processor). -/
structure UpdateStepSummaryJobData where
  step_id : String
  input_count : Option Int
  output_count : Option Int
  rejection_breakdown : Option (List (String × JsonPrim))
  run_id : Option String
deriving DecidableEq, Repr

/-- One entry of a bulk-candidate job; `decision` is a raw string so
that malformed decisions are representable. -/
structure BulkCandidateEntry where
  candidate_id : String
  decision : String
  score : Option Rat
  reason : Option String
deriving DecidableEq, Repr

/-- Mirror of `CreateCandidateJobData` (candidate processor). -/
structure CreateCandidateJobData where
  candidate_id : String
  step_id : String
  decision : String
  score : Option Rat
  reason : Option String
  run_id : Option String
deriving DecidableEq, Repr

/-- Mirror of `CreateCandidatesBulkJobData` (candidate processor). -/
structure CreateCandidatesBulkJobData where
  step_id : String
  candidates : List BulkCandidateEntry
  run_id : Option String
deriving DecidableEq, Repr

/-- `processCreateRun`: throw on a missing required field, then call
`createRun` with `status || 'running'`. -/
def processCreateRun (d : CreateRunJobData) (s : Store) : Option JobErr × Store :=
  if d.run_id = "" ∨ d.pipeline = "" ∨ d.started_at = "" then
    (some JobErr.validationError, s)
  else
    (none, createRun
      { run_id := d.run_id, pipeline := d.pipeline, input := d.input,
        started_at := d.started_at, ended_at := none,
        status := jsStrOr d.status "running" } s)

/-- `processUpdateRun`: throw on a missing run id, then call
`updateRun`. -/
def processUpdateRun (d : UpdateRunJobData) (s : Store) : Option JobErr × Store :=
  if d.run_id = "" then (some JobErr.validationError, s)
  else (none, updateRun d.run_id d.ended_at d.status s)

/-- `processCreateStep`: throw on a missing required field or a type
outside the four-value enumeration, then `ensureRunExists` (with the
job's pipeline hint) followed by `createStep`. -/
def processCreateStep (d : CreateStepJobData) (now : String) (s : Store) :
    Option JobErr × Store :=
  if d.step_id = "" ∨ d.run_id = "" ∨ d.name = "" ∨ d.stype = "" then
    (some JobErr.validationError, s)
  else if (stepTypeValues.contains d.stype) = false then
    (some JobErr.validationError, s)
  else
    let s1 := ensureRunExists d.run_id d.pipeline now s
    match createStep
      { step_id := d.step_id, run_id := d.run_id, name := d.name,
        stype := d.stype, input_count := none, output_count := none,
        metadata := jsValOrEmptyObj d.metadata } s1 with
    | (none, s2) => (none, s2)
    | (some e, s2) => (some (JobErr.dbError e), s2)

/-- Sum of the rejection-breakdown values, counting only numeric values
(`typeof value === 'number' ? value : 0` folded over
`Object.values(rejection_breakdown)` from 0). -/
def sumNumericValues (bs : List (String × JsonPrim)) : Int :=
  bs.foldl (fun acc p =>
    acc + match p.2 with
          | JsonPrim.pnum n => n
          | _ => 0) 0

/-- `processUpdateStepSummary`: throw on a missing step id;
`ensureStepExists` when a run id is supplied; compute
`accepted = output_count || 0` and `rejected` from the breakdown when it
is supplied (summing only numeric values) or from
`(input_count || 0) - accepted` otherwise; then `updateStepSummary`. -/
def processUpdateStepSummary (d : UpdateStepSummaryJobData) (s : Store) :
    Option JobErr × Store :=
  if d.step_id = "" then (some JobErr.validationError, s)
  else
    let s1 := match d.run_id with
      | some rid => if rid = "" then s else ensureStepExists d.step_id rid s
      | none => s
    let accepted := jsNumOr0 d.output_count
    let rejected := match d.rejection_breakdown with
      | some bs => sumNumericValues bs
      | none => jsNumOr0 d.input_count - accepted
    match updateStepSummary d.step_id
      { step_id := d.step_id, rejected := rejected, accepted := accepted,
        rejection_breakdown := d.rejection_breakdown.getD [] }
      d.input_count d.output_count s1 with
    | (none, s2) => (none, s2)
    | (some e, s2) => (some (JobErr.dbError e), s2)

/-- `processCreateCandidate`: throw on a missing candidate id or
decision, or a decision outside {accepted, rejected};
`ensureStepExists` when a run id is supplied; then `createCandidate`. -/
def processCreateCandidate (d : CreateCandidateJobData) (s : Store) :
    Option JobErr × Store :=
  if d.candidate_id = "" ∨ d.decision = "" then (some JobErr.validationError, s)
  else if d.decision ≠ "accepted" ∧ d.decision ≠ "rejected" then
    (some JobErr.validationError, s)
  else
    let s1 := match d.run_id with
      | some rid => if rid = "" then s else ensureStepExists d.step_id rid s
      | none => s
    match createCandidate
      { candidate_id := d.candidate_id, step_id := d.step_id,
        decision := d.decision, score := d.score, reason := d.reason } s1 with
    | (none, s2) => (none, s2)
    | (some e, s2) => (some (JobErr.dbError e), s2)

/-- The validation filter of `processCreateCandidatesBulk`:
`c.candidate_id && c.decision && ['accepted','rejected'].includes(c.decision)`. -/
def validBulkEntry (c : BulkCandidateEntry) : Bool :=
  c.candidate_id != "" && c.decision != "" &&
    (c.decision == "accepted" || c.decision == "rejected")

/-- The valid entries of a bulk job, mapped to candidate records with
the job's step id. -/
def validCandidatesOf (d : CreateCandidatesBulkJobData) : List CandidateRecord :=
  (d.candidates.filter validBulkEntry).map (fun c =>
    { candidate_id := c.candidate_id, step_id := d.step_id,
      decision := c.decision, score := c.score, reason := c.reason })

/-- `processCreateCandidatesBulk`: throw on a missing or empty
candidates array; `ensureStepExists` when a run id is supplied; discard
malformed entries via `validBulkEntry`; apply the surviving entries with
the all-or-nothing `createCandidatesBulk` when any survive. -/
def processCreateCandidatesBulk (d : CreateCandidatesBulkJobData) (s : Store) :
    Option JobErr × Store :=
  if d.candidates.isEmpty then (some JobErr.validationError, s)
  else
    let s1 := match d.run_id with
      | some rid => if rid = "" then s else ensureStepExists d.step_id rid s
      | none => s
    let valid := validCandidatesOf d
    if valid.isEmpty then (none, s1)
    else
      match createCandidatesBulk valid s1 with
      | (none, s2) => (none, s2)
      | (some e, s2) => (some (JobErr.dbError e), s2)

/-- The JSON body of `POST /steps` at the acceptance boundary; every
field may be absent, and `stype` is the raw `type` string. -/
structure StepPostBody where
  step_id : Option String
  run_id : Option String
  name : Option String
  stype : Option String
  metadata : Option JsonVal
  pipeline : Option String
deriving DecidableEq, Repr

/-- The `POST /steps` route handler (queue-backed variant): returns the
HTTP status code and the enqueued `create-step` job, if any.  A missing
required field or a type outside the enumeration is rejected with 400
before anything is enqueued; the handler itself never touches the
store. -/
def postStepsRoute (b : StepPostBody) : Nat × Option CreateStepJobData :=
  if optStrTruthy b.step_id = false ∨ optStrTruthy b.run_id = false ∨
     optStrTruthy b.name = false ∨ optStrTruthy b.stype = false then
    (400, none)
  else if (stepTypeValues.contains (b.stype.getD "")) = false then
    (400, none)
  else
    (201, some
      { step_id := b.step_id.getD "", run_id := b.run_id.getD "",
        name := b.name.getD "", stype := b.stype.getD "",
        metadata := some (jsValOrEmptyObj b.metadata),
        pipeline := b.pipeline })

/-- A result row of the high-rejection query, carrying the selected
columns and the computed `rejection_rate`. -/
structure HighRejectionRow where
  step_id : String
  run_id : String
  name : String
  stype : String
  metadata : JsonVal
  rejected : Int
  accepted : Int
  rejection_rate : Rat
deriving DecidableEq, Repr

/-- The rejection rate `rejected / (rejected + accepted)` as an exact
rational. -/
def rejectionRate (sm : SummaryRow) : Rat :=
  (sm.rejected : Rat) / ((sm.rejected : Rat) + (sm.accepted : Rat))

/-- Descending order on rejection rate (the query's `ORDER BY
rejection_rate DESC`). -/
def rateGE (a b : HighRejectionRow) : Prop :=
  b.rejection_rate ≤ a.rejection_rate

instance : DecidableRel rateGE := fun a b =>
  inferInstanceAs (Decidable (b.rejection_rate ≤ a.rejection_rate))

instance : IsTotal HighRejectionRow rateGE :=
  ⟨fun a b => le_total b.rejection_rate a.rejection_rate⟩

instance : IsTrans HighRejectionRow rateGE :=
  ⟨fun _ _ _ hab hbc => le_trans hbc hab⟩

/-- `findFilteringStepsWithHighRejectionRate`: join each step to its
summary, keep steps of type `filter` whose rate is defined
(`NULLIF(rejected + accepted, 0)` makes a zero denominator NULL, and a
NULL rate fails the `> threshold` comparison) and strictly exceeds the
threshold, and order by rate descending. -/
def findFilteringStepsWithHighRejectionRate (threshold : Rat) (s : Store) :
    List HighRejectionRow :=
  let joined := s.steps.filterMap (fun p =>
    match alookup p.1 s.step_summaries with
    | none => none
    | some sm =>
        if p.2.stype = "filter" ∧ sm.rejected + sm.accepted ≠ 0 ∧
           rejectionRate sm > threshold then
          some
            { step_id := p.1, run_id := p.2.run_id, name := p.2.name,
              stype := p.2.stype, metadata := p.2.metadata,
              rejected := sm.rejected, accepted := sm.accepted,
              rejection_rate := rejectionRate sm }
        else none)
  List.insertionSort rateGE joined

/-- The `GET /steps/query/high-rejection` route: parse the threshold
query parameter, defaulting to 0.9 when it is absent, and run the
query. -/
def highRejectionRoute (thresholdParam : Option Rat) (s : Store) :
    List HighRejectionRow :=
  findFilteringStepsWithHighRejectionRate
    (match thresholdParam with
     | some t => t
     | none => (9 : Rat) / 10) s

/-- Run and update events for a given run, as delivered by the queue to
the run processor. -/
inductive RunEvent where
  | create (d : CreateRunJobData) : RunEvent
  | update (d : UpdateRunJobData) : RunEvent
deriving DecidableEq, Repr

/-- Apply one run event through its processor, keeping whatever the
store is afterwards (a failed job leaves the store unchanged). -/
def applyRunEvent (e : RunEvent) (s : Store) : Store :=
  match e with
  | RunEvent.create d => (processCreateRun d s).2
  | RunEvent.update d => (processUpdateRun d s).2

/-- Apply a sequence of run events in order. -/
def applyRunEvents (es : List RunEvent) (s : Store) : Store :=
  es.foldl (fun s e => applyRunEvent e s) s

/-- The stored status of a run, when the run exists. -/
def runStatusOf (s : Store) (runId : String) : Option String :=
  (alookup runId s.runs).map RunRow.status

/-- Whether a status string is terminal. -/
def isTerminalStatus (st : String) : Bool :=
  st == "success" || st == "error"

/-- A run event that can never write the status `running` (or any other
non-terminal status) for the given run: an event for another run, an
invalid event that the processor rejects, an update writing no status or
a terminal one, or a create carrying a terminal status.  Any other event
overwrites the stored status with a non-terminal string. -/
def preservesTerminal (runId : String) (e : RunEvent) : Prop :=
  match e with
  | RunEvent.create d =>
      d.run_id = runId →
      (d.run_id = "" ∨ d.pipeline = "" ∨ d.started_at = "") ∨
        isTerminalStatus (jsStrOr d.status "running") = true
  | RunEvent.update d =>
      d.run_id = runId →
      optStrTruthy d.status = false ∨
        (∃ st, d.status = some st ∧ isTerminalStatus st = true)

/-- The summary row that `processUpdateStepSummary` computes and stores
for a job (`accepted = output_count || 0`; `rejected` from the breakdown
when supplied, numeric values only, else `(input_count || 0) -
accepted`). -/
def computedSummaryRow (d : UpdateStepSummaryJobData) : SummaryRow :=
  let accepted := jsNumOr0 d.output_count
  let rejected := match d.rejection_breakdown with
    | some bs => sumNumericValues bs
    | none => jsNumOr0 d.input_count - accepted
  { rejected := rejected, accepted := accepted,
    rejection_breakdown := d.rejection_breakdown.getD [] }

/-- Fixture: the run row of run `r1`. -/
def runRowR1 : RunRow :=
  { pipeline := "pipeline-a", input := JsonVal.jobj [], started_at := "t0",
    ended_at := none, status := "running" }

/-- Fixture: the step row of filter step `s1` under run `r1`. -/
def stepRowS1 : StepRow :=
  { run_id := "r1", name := "dedupe", stype := "filter", input_count := none,
    output_count := none, metadata := JsonVal.jobj [] }

/-- Fixture: a store holding run `r1` and filter step `s1`. -/
def fixtureStore : Store :=
  { runs := [("r1", runRowR1)], steps := [("s1", stepRowS1)],
    step_summaries := [], candidates := [] }

/-- Fixture: a store where filter step `s1` additionally has a summary
with 19 rejected and 1 accepted (rate 0.95). -/
def fixtureSummaryStore : Store :=
  { runs := [("r1", runRowR1)], steps := [("s1", stepRowS1)],
    step_summaries := [("s1", { rejected := 19, accepted := 1, rejection_breakdown := [] })],
    candidates := [] }

/-- Fixture: a store where filter step `s1` has the degenerate summary
0 rejected / 0 accepted. -/
def fixtureZeroSummaryStore : Store :=
  { runs := [("r1", runRowR1)], steps := [("s1", stepRowS1)],
    step_summaries := [("s1", { rejected := 0, accepted := 0, rejection_breakdown := [] })],
    candidates := [] }

/-- Fixture: summary job with breakdown `{a: 5, b: 3}` and output count 2. -/
def summaryJobBreakdown : UpdateStepSummaryJobData :=
  { step_id := "s1", input_count := none, output_count := some 2,
    rejection_breakdown := some [("a", JsonPrim.pnum 5), ("b", JsonPrim.pnum 3)],
    run_id := none }

/-- Fixture: summary job with no breakdown, input count 100, output count 25. -/
def summaryJobFallback : UpdateStepSummaryJobData :=
  { step_id := "s1", input_count := some 100, output_count := some 25,
    rejection_breakdown := none, run_id := none }

/-- Fixture: summary job with an empty breakdown object and input/output
counts that the fallback would turn into rejected = 75. -/
def summaryJobEmptyBreakdown : UpdateStepSummaryJobData :=
  { step_id := "s1", input_count := some 100, output_count := some 25,
    rejection_breakdown := some [], run_id := none }

/-- Fixture: summary job whose breakdown mixes a numeric and a
non-numeric value. -/
def summaryJobMixedBreakdown : UpdateStepSummaryJobData :=
  { step_id := "s1", input_count := none, output_count := none,
    rejection_breakdown := some [("a", JsonPrim.pnum 7), ("b", JsonPrim.pstr "oops")],
    run_id := none }

/-- Fixture: the authoritative create-run job for run `r1`. -/
def createRunJobR1 : CreateRunJobData :=
  { run_id := "r1", pipeline := "pipeline-a", input := JsonVal.jobj [],
    started_at := "t0", status := none }

/-- Fixture: the create-step job for step `s1` of run `r1`, carrying no
pipeline hint. -/
def createStepJobNoHint : CreateStepJobData :=
  { step_id := "s1", run_id := "r1", name := "dedupe", stype := "filter",
    metadata := none, pipeline := none }

/-- Fixture: the same create-step job carrying the pipeline hint. -/
def createStepJobWithHint : CreateStepJobData :=
  { step_id := "s1", run_id := "r1", name := "dedupe", stype := "filter",
    metadata := none, pipeline := some "pipeline-a" }

/-- Fixture: the update-run job that ends run `r1` with status success. -/
def endRunJobR1 : UpdateRunJobData :=
  { run_id := "r1", ended_at := some "t1", status := some "success" }

/-- Fixture: an update-run job carrying status `running` for run `r1`. -/
def reopenRunJobR1 : UpdateRunJobData :=
  { run_id := "r1", ended_at := none, status := some "running" }

/-- Fixture: a bulk candidate job for step `s1` containing one valid
entry, one entry with a missing candidate id, and one entry with an
invalid decision. -/
def bulkJobFixture : CreateCandidatesBulkJobData :=
  { step_id := "s1",
    candidates :=
      [ { candidate_id := "c1", decision := "accepted", score := none, reason := none },
        { candidate_id := "", decision := "rejected", score := none, reason := none },
        { candidate_id := "c2", decision := "maybe", score := none, reason := none } ],
    run_id := none }

/-- Fixture: a `POST /steps` body whose type is outside the enumeration. -/
def badTypeStepBody : StepPostBody :=
  { step_id := some "s1", run_id := some "r1", name := some "dedupe",
    stype := some "transform", metadata := none, pipeline := none }

/-- The candidates table after inserting a list of candidate records in
order (the committed effect of a successful bulk transaction). -/
def applyCandidateRows (t : List ((String × String) × CandidateRow))
    (cs : List CandidateRecord) : List ((String × String) × CandidateRow) :=
  cs.foldl (fun t c =>
    insertOnConflictUpdate (c.candidate_id, c.step_id)
      (candidateInsertRow c) (fun _old => candidateInsertRow c) t) t

section AssocLemmas

variable {κ α : Type} [DecidableEq κ]

theorem alookup_aupdate_self (k : κ) (f : α → α) (l : List (κ × α)) :
    alookup k (aupdate k f l) = (alookup k l).map f := by
  induction l with
  | nil => rfl
  | cons p rest ih =>
    obtain ⟨k', v⟩ := p
    by_cases h : k' = k
    · subst h
      simp [aupdate, alookup]
    · simp [aupdate, alookup, h, ih]

theorem alookup_aupdate_ne (k k' : κ) (hne : k ≠ k') (f : α → α) (l : List (κ × α)) :
    alookup k' (aupdate k f l) = alookup k' l := by
  induction l with
  | nil => rfl
  | cons p rest ih =>
    obtain ⟨ka, v⟩ := p
    by_cases h : ka = k
    · subst h
      simp [aupdate, alookup, hne, ih]
    · by_cases h' : ka = k'
      · subst h'
        simp [aupdate, alookup, h, Ne.symm hne]
      · simp [aupdate, alookup, h, h', ih]

theorem alookup_append (k : κ) (l l' : List (κ × α)) :
    alookup k (l ++ l') = ((alookup k l).orElse (fun _ => alookup k l')) := by
  induction l with
  | nil => simp [alookup]
  | cons p rest ih =>
    obtain ⟨k', v⟩ := p
    by_cases h : k' = k
    · simp [alookup, h]
    · simpa [alookup, h] using ih

theorem containsKey_aupdate (k k' : κ) (f : α → α) (l : List (κ × α)) :
    containsKey k' (aupdate k f l) = containsKey k' l := by
  unfold containsKey
  by_cases h : k = k'
  · subst h
    rw [alookup_aupdate_self]
    cases alookup k l <;> rfl
  · rw [alookup_aupdate_ne k k' h]

theorem aupdate_comp (k : κ) (f g : α → α) (l : List (κ × α)) :
    aupdate k f (aupdate k g l) = aupdate k (fun v => f (g v)) l := by
  induction l with
  | nil => rfl
  | cons p rest ih =>
    obtain ⟨k', v⟩ := p
    by_cases h : k' = k <;> simp [aupdate, h, ih]

theorem aupdate_congr (k : κ) (f g : α → α) (h : ∀ v, f v = g v) (l : List (κ × α)) :
    aupdate k f l = aupdate k g l := by
  induction l with
  | nil => rfl
  | cons p rest ih =>
    obtain ⟨k', v⟩ := p
    by_cases hp : k' = k <;> simp [aupdate, hp, h, ih]

theorem aupdate_of_not_containsKey (k : κ) (f : α → α) (l : List (κ × α))
    (h : containsKey k l = false) : aupdate k f l = l := by
  induction l with
  | nil => rfl
  | cons p rest ih =>
    obtain ⟨k', v⟩ := p
    by_cases hp : k' = k
    · exfalso
      simp [containsKey, alookup, hp] at h
    · simp only [containsKey, alookup] at h
      rw [if_neg hp] at h
      simp [aupdate, hp, ih (by simpa [containsKey] using h)]

theorem aupdate_append (k : κ) (f : α → α) (l l' : List (κ × α)) :
    aupdate k f (l ++ l') = aupdate k f l ++ aupdate k f l' := by
  induction l with
  | nil => rfl
  | cons p rest ih =>
    obtain ⟨k', v⟩ := p
    by_cases h : k' = k <;> simp [aupdate, h, ih]

theorem containsKey_append (k : κ) (l l' : List (κ × α)) :
    containsKey k (l ++ l') = (containsKey k l || containsKey k l') := by
  unfold containsKey
  rw [alookup_append]
  cases alookup k l <;> cases alookup k l' <;> rfl

/-- Idempotency of `INSERT ... ON CONFLICT DO UPDATE` when the merge
function is idempotent and fixes the fresh row. -/
theorem insertOnConflictUpdate_idem (k : κ) (row : α) (merge : α → α)
    (hmerge : ∀ v, merge (merge v) = merge v) (hrow : merge row = row)
    (l : List (κ × α)) :
    insertOnConflictUpdate k row merge (insertOnConflictUpdate k row merge l) =
      insertOnConflictUpdate k row merge l := by
  by_cases h : containsKey k l
  · unfold insertOnConflictUpdate
    rw [if_pos h, if_pos (by rw [containsKey_aupdate]; exact h), aupdate_comp]
    exact aupdate_congr _ _ _ hmerge _
  · have h1 : insertOnConflictUpdate k row merge l = l ++ [(k, row)] := by
      unfold insertOnConflictUpdate
      rw [if_neg h]
    have h2 : containsKey k (l ++ [(k, row)]) = true := by
      rw [containsKey_append]
      simp [containsKey, alookup]
    rw [h1]
    unfold insertOnConflictUpdate
    rw [if_pos h2, aupdate_append,
      aupdate_of_not_containsKey k _ l (by simpa using h)]
    simp [aupdate, hrow]

theorem alookup_insertOnConflictUpdate_self (k : κ) (row : α) (merge : α → α)
    (l : List (κ × α)) :
    alookup k (insertOnConflictUpdate k row merge l) =
      some ((alookup k l).elim row merge) := by
  unfold insertOnConflictUpdate
  by_cases h : containsKey k l
  · rw [if_pos h, alookup_aupdate_self]
    unfold containsKey at h
    cases hv : alookup k l with
    | none => rw [hv] at h; simp at h
    | some v => simp
  · rw [if_neg h, alookup_append]
    unfold containsKey at h
    cases hv : alookup k l with
    | none => simp [alookup]
    | some v => rw [hv] at h; simp at h

theorem alookup_insertOnConflictUpdate_ne (k k' : κ) (hne : k ≠ k') (row : α)
    (merge : α → α) (l : List (κ × α)) :
    alookup k' (insertOnConflictUpdate k row merge l) = alookup k' l := by
  unfold insertOnConflictUpdate
  by_cases h : containsKey k l
  · rw [if_pos h, alookup_aupdate_ne k k' hne]
  · rw [if_neg h, alookup_append]
    cases hv : alookup k' l with
    | none => simp [alookup, if_neg hne]
    | some v => simp

theorem containsKey_insertOnConflictUpdate_self (k : κ) (row : α) (merge : α → α)
    (l : List (κ × α)) :
    containsKey k (insertOnConflictUpdate k row merge l) = true := by
  unfold containsKey
  rw [alookup_insertOnConflictUpdate_self]
  rfl

theorem containsKey_insertOnConflictUpdate_mono (k k' : κ) (row : α) (merge : α → α)
    (l : List (κ × α)) (h : containsKey k' l = true) :
    containsKey k' (insertOnConflictUpdate k row merge l) = true := by
  by_cases hk : k = k'
  · subst hk; exact containsKey_insertOnConflictUpdate_self k row merge l
  · unfold containsKey
    rw [alookup_insertOnConflictUpdate_ne k k' hk]
    exact h

end AssocLemmas

theorem ensureStepExists_of_containsKey (stepId runId : String) (s : Store)
    (h : containsKey stepId s.steps = true) : ensureStepExists stepId runId s = s := by
  unfold ensureStepExists
  unfold containsKey at h
  cases hv : alookup stepId s.steps with
  | none => rw [hv] at h; simp at h
  | some v => rfl

theorem ensureRunExists_of_containsKey (runId : String) (p : Option String)
    (now : String) (s : Store) (h : containsKey runId s.runs = true) :
    ensureRunExists runId p now s = s := by
  unfold ensureRunExists
  unfold containsKey at h
  cases hv : alookup runId s.runs with
  | none => rw [hv] at h; simp at h
  | some v => rfl

theorem foldl_add_eq (g : (String × JsonPrim) → Int) (bs : List (String × JsonPrim))
    (a : Int) : bs.foldl (fun acc p => acc + g p) a = a + (bs.map g).sum := by
  induction bs generalizing a with
  | nil => simp
  | cons p rest ih => simp [List.foldl_cons, ih, add_assoc]

theorem sumNumericValues_eq_sum (bs : List (String × JsonPrim)) :
    sumNumericValues bs =
      (bs.map (fun p => match p.2 with
        | JsonPrim.pnum n => n
        | _ => 0)).sum := by
  unfold sumNumericValues
  rw [foldl_add_eq]
  simp

theorem sumNumericValues_map_pnum (ns : List (String × Int)) :
    sumNumericValues (ns.map (fun q => (q.1, JsonPrim.pnum q.2))) =
      (ns.map Prod.snd).sum := by
  rw [sumNumericValues_eq_sum, List.map_map]
  rfl

/-- After a summary job whose step already exists, the job succeeds and
the stored summary row is exactly `computedSummaryRow`. -/
theorem processUpdateStepSummary_stored (d : UpdateStepSummaryJobData) (s : Store)
    (hid : ¬ d.step_id = "") (hstep : containsKey d.step_id s.steps = true) :
    (processUpdateStepSummary d s).1 = none ∧
    alookup d.step_id (processUpdateStepSummary d s).2.step_summaries =
      some (computedSummaryRow d) := by
  have hens : (match d.run_id with
      | some rid => if rid = "" then s else ensureStepExists d.step_id rid s
      | none => s) = s := by
    cases hr : d.run_id with
    | none => rfl
    | some rid =>
        by_cases hrid : rid = ""
        · simp [hrid]
        · simp [hrid, ensureStepExists_of_containsKey _ _ _ hstep]
  simp only [processUpdateStepSummary]
  rw [if_neg hid, hens]
  simp only [updateStepSummary, hstep]
  by_cases hio : d.input_count.isSome ∨ d.output_count.isSome
  · rw [if_pos hio]
    constructor
    · rfl
    · show alookup d.step_id (insertOnConflictUpdate d.step_id _ _ s.step_summaries) =
        some (computedSummaryRow d)
      rw [alookup_insertOnConflictUpdate_self]
      cases alookup d.step_id s.step_summaries <;> rfl
  · rw [if_neg hio]
    constructor
    · rfl
    · show alookup d.step_id (insertOnConflictUpdate d.step_id _ _ s.step_summaries) =
        some (computedSummaryRow d)
      rw [alookup_insertOnConflictUpdate_self]
      cases alookup d.step_id s.step_summaries <;> rfl

/-- C2: for every update-step-summary event (on an existing step), the
stored summary has accepted = the supplied output_count, rejected = the
sum of the breakdown values when a breakdown is supplied, and otherwise
rejected = input_count − accepted; in particular breakdown {a: 5, b: 3}
with output_count 2 stores rejected = 8 and accepted = 2, and no
breakdown with input_count 100 and output_count 25 stores rejected = 75
and accepted = 25. -/
theorem updateStepSummary_accepted_rejected (d : UpdateStepSummaryJobData)
    (s : Store) (hid : ¬ d.step_id = "")
    (hstep : containsKey d.step_id s.steps = true) :
    (∃ sm, alookup d.step_id (processUpdateStepSummary d s).2.step_summaries =
        some sm ∧
      (∀ oc, d.output_count = some oc → sm.accepted = oc) ∧
      (∀ ns : List (String × Int),
        d.rejection_breakdown = some (ns.map (fun q => (q.1, JsonPrim.pnum q.2))) →
        sm.rejected = (ns.map Prod.snd).sum) ∧
      (d.rejection_breakdown = none → ∀ ic, d.input_count = some ic →
        sm.rejected = ic - sm.accepted)) ∧
    alookup "s1" (processUpdateStepSummary summaryJobBreakdown fixtureStore).2.step_summaries =
      some ⟨8, 2, [("a", JsonPrim.pnum 5), ("b", JsonPrim.pnum 3)]⟩ ∧
    alookup "s1" (processUpdateStepSummary summaryJobFallback fixtureStore).2.step_summaries =
      some ⟨75, 25, []⟩ := by
  refine ⟨⟨computedSummaryRow d,
    (processUpdateStepSummary_stored d s hid hstep).2, ?_, ?_, ?_⟩, by decide, by decide⟩
  · intro oc hoc
    simp [computedSummaryRow, hoc, jsNumOr0]
  · intro ns hns
    simp [computedSummaryRow, hns, sumNumericValues_map_pnum]
  · intro hnone ic hic
    simp [computedSummaryRow, hnone, hic, jsNumOr0]

theorem updateStepSummary_accepted_rejected_witness :
    ∃ sm, alookup "s1"
        (processUpdateStepSummary summaryJobFallback fixtureStore).2.step_summaries =
        some sm ∧ sm.accepted = 25 ∧ sm.rejected = 100 - sm.accepted := by
  obtain ⟨⟨sm, hsm, hacc, _, hfb⟩, _, _⟩ :=
    updateStepSummary_accepted_rejected summaryJobFallback fixtureStore
      (by decide) (by decide)
  exact ⟨sm, hsm, hacc 25 rfl, hfb rfl 100 rfl⟩

/-- C10: for every update-step-summary event whose breakdown is a
(possibly empty) object, the stored rejected count is the sum of only
the numeric breakdown values — non-numeric values contribute 0, and an
empty breakdown stores rejected = 0 instead of falling back to
input_count − accepted (shown concretely with input_count 100 and
output_count 25, where the fallback would store 75). -/
theorem updateStepSummary_breakdown_numeric_only (d : UpdateStepSummaryJobData)
    (s : Store) (hid : ¬ d.step_id = "")
    (hstep : containsKey d.step_id s.steps = true)
    (bs : List (String × JsonPrim)) (hbd : d.rejection_breakdown = some bs) :
    (∃ sm, alookup d.step_id (processUpdateStepSummary d s).2.step_summaries =
        some sm ∧
      sm.rejected = (bs.map (fun p => match p.2 with
        | JsonPrim.pnum n => n
        | _ => 0)).sum ∧
      (bs = [] → sm.rejected = 0)) ∧
    alookup "s1" (processUpdateStepSummary summaryJobEmptyBreakdown fixtureStore).2.step_summaries =
      some ⟨0, 25, []⟩ ∧
    alookup "s1" (processUpdateStepSummary summaryJobMixedBreakdown fixtureStore).2.step_summaries =
      some ⟨7, 0, [("a", JsonPrim.pnum 7), ("b", JsonPrim.pstr "oops")]⟩ := by
  refine ⟨⟨computedSummaryRow d,
    (processUpdateStepSummary_stored d s hid hstep).2, ?_, ?_⟩, by decide, by decide⟩
  · simp [computedSummaryRow, hbd, sumNumericValues_eq_sum]
  · intro hbs
    subst hbs
    simp [computedSummaryRow, hbd, sumNumericValues]

/-- C6: upserting a run whose identifier already exists never fails and
modifies only the end-timestamp and status fields of the existing row;
pipeline, input and start-timestamp keep the values of the first write,
and every other row of every table is untouched. -/
theorem createRun_conflict_overwrites_end_and_status_only (r : RunRecord)
    (s : Store) (old : RunRow) (hold : alookup r.run_id s.runs = some old) :
    alookup r.run_id (createRun r s).runs =
      some ⟨old.pipeline, old.input, old.started_at, none, r.status⟩ ∧
    (∀ k, k ≠ r.run_id → alookup k (createRun r s).runs = alookup k s.runs) ∧
    (createRun r s).steps = s.steps ∧
    (createRun r s).step_summaries = s.step_summaries ∧
    (createRun r s).candidates = s.candidates := by
  refine ⟨?_, ?_, rfl, rfl, rfl⟩
  · show alookup r.run_id (insertOnConflictUpdate r.run_id _ _ s.runs) = _
    rw [alookup_insertOnConflictUpdate_self, hold]
    rfl
  · intro k hk
    exact alookup_insertOnConflictUpdate_ne _ _ (Ne.symm hk) _ _ _

theorem createRun_conflict_overwrites_end_and_status_only_witness :
    alookup "r1" (createRun ⟨"r1", "pipeline-b", JsonVal.jobj [], "t9", some "t9", "success"⟩ fixtureStore).runs =
      some ⟨"pipeline-a", JsonVal.jobj [], "t0", none, "success"⟩ := by
  have h := createRun_conflict_overwrites_end_and_status_only
    ⟨"r1", "pipeline-b", JsonVal.jobj [], "t9", some "t9", "success"⟩
    fixtureStore runRowR1 (by decide)
  simpa [runRowR1] using h.1

theorem coalesce_coalesce (x y : Option Int) :
    coalesce x (coalesce x y) = coalesce x y := by
  cases x <;> rfl

theorem coalesce_self (x : Option Int) : coalesce x x = x := by
  cases x <;> rfl

theorem createStep_fk_fail (p : StepRecord) (s : Store)
    (h : containsKey p.run_id s.runs = false) :
    createStep p s = (some DbErr.fkViolation, s) := by
  unfold createStep
  rw [if_pos h]

theorem createStep_check_fail (p : StepRecord) (s : Store)
    (h1 : containsKey p.run_id s.runs = true)
    (h2 : stepTypeValues.contains p.stype = false) :
    createStep p s = (some DbErr.checkViolation, s) := by
  unfold createStep
  rw [if_neg (by rw [h1]; simp), if_pos h2]

theorem createStep_ok (p : StepRecord) (s : Store)
    (h1 : containsKey p.run_id s.runs = true)
    (h2 : stepTypeValues.contains p.stype = true) :
    createStep p s =
      (none, { s with steps := insertOnConflictUpdate p.step_id (stepInsertRow p) (stepConflictMerge p) s.steps }) := by
  unfold createStep
  rw [if_neg (by rw [h1]; simp), if_neg (by rw [h2]; simp)]

theorem createCandidate_fk_fail (c : CandidateRecord) (s : Store)
    (h : containsKey c.step_id s.steps = false) :
    createCandidate c s = (some DbErr.fkViolation, s) := by
  unfold createCandidate
  rw [if_pos h]

theorem createCandidate_check_fail (c : CandidateRecord) (s : Store)
    (h1 : containsKey c.step_id s.steps = true)
    (h2 : c.decision ≠ "accepted" ∧ c.decision ≠ "rejected") :
    createCandidate c s = (some DbErr.checkViolation, s) := by
  unfold createCandidate
  rw [if_neg (by rw [h1]; simp), if_pos h2]

theorem createCandidate_ok (c : CandidateRecord) (s : Store)
    (h1 : containsKey c.step_id s.steps = true)
    (h2 : c.decision = "accepted" ∨ c.decision = "rejected") :
    createCandidate c s =
      (none, { s with candidates := insertOnConflictUpdate (c.candidate_id, c.step_id) (candidateInsertRow c) (fun _old => candidateInsertRow c) s.candidates }) := by
  unfold createCandidate
  rw [if_neg (by simp [h1])]
  rw [if_neg (by rcases h2 with h | h <;> simp [h])]

theorem updateStepSummary_fk_fail (stepId : String) (sm : StepSummaryRecord)
    (ic oc : Option Int) (s : Store) (h : containsKey stepId s.steps = false) :
    updateStepSummary stepId sm ic oc s = (some DbErr.fkViolation, s) := by
  unfold updateStepSummary
  rw [if_pos h]

theorem updateStepSummary_ok_counts (stepId : String) (sm : StepSummaryRecord)
    (ic oc : Option Int) (s : Store) (h : containsKey stepId s.steps = true)
    (hio : ic.isSome ∨ oc.isSome) :
    updateStepSummary stepId sm ic oc s =
      (none,
        { s with
          step_summaries := insertOnConflictUpdate stepId (summaryInsertRow sm) (fun _old => summaryInsertRow sm) s.step_summaries,
          steps := aupdate stepId (stepCountsUpdate ic oc) s.steps }) := by
  unfold updateStepSummary
  rw [if_neg (by rw [h]; simp), if_pos hio]

theorem updateStepSummary_ok_nocounts (stepId : String) (sm : StepSummaryRecord)
    (ic oc : Option Int) (s : Store) (h : containsKey stepId s.steps = true)
    (hio : ¬(ic.isSome ∨ oc.isSome)) :
    updateStepSummary stepId sm ic oc s =
      (none,
        { s with step_summaries := insertOnConflictUpdate stepId (summaryInsertRow sm) (fun _old => summaryInsertRow sm) s.step_summaries }) := by
  unfold updateStepSummary
  rw [if_neg (by rw [h]; simp), if_neg hio]

theorem createRun_idem (r : RunRecord) (s : Store) :
    createRun r (createRun r s) = createRun r s := by
  have h : insertOnConflictUpdate r.run_id (runInsertRow r) (runConflictMerge r)
      (insertOnConflictUpdate r.run_id (runInsertRow r) (runConflictMerge r) s.runs) =
      insertOnConflictUpdate r.run_id (runInsertRow r) (runConflictMerge r) s.runs :=
    insertOnConflictUpdate_idem r.run_id (runInsertRow r) (runConflictMerge r)
      (fun v => rfl) rfl s.runs
  simp only [createRun]
  rw [h]

theorem createStep_effect_idem (p : StepRecord) (s : Store) :
    (createStep p (createStep p s).2).2 = (createStep p s).2 := by
  cases hfk : containsKey p.run_id s.runs with
  | false =>
      rw [createStep_fk_fail p s hfk]
      dsimp only
      rw [createStep_fk_fail p s hfk]
  | true =>
      cases hty : stepTypeValues.contains p.stype with
      | false =>
          rw [createStep_check_fail p s hfk hty]
          dsimp only
          rw [createStep_check_fail p s hfk hty]
      | true =>
          have hI : insertOnConflictUpdate p.step_id (stepInsertRow p) (stepConflictMerge p)
              (insertOnConflictUpdate p.step_id (stepInsertRow p) (stepConflictMerge p) s.steps) =
              insertOnConflictUpdate p.step_id (stepInsertRow p) (stepConflictMerge p) s.steps :=
            insertOnConflictUpdate_idem _ _ _
              (fun v => by simp [stepConflictMerge, coalesce_coalesce])
              (by simp [stepConflictMerge, stepInsertRow, coalesce_self]) _
          have hfk2 : containsKey p.run_id
              ({ s with steps := insertOnConflictUpdate p.step_id (stepInsertRow p) (stepConflictMerge p) s.steps } : Store).runs = true := hfk
          rw [createStep_ok p s hfk hty]
          dsimp only
          rw [createStep_ok p _ hfk2 hty]
          dsimp only
          rw [hI]

theorem updateStepSummary_effect_idem (stepId : String) (sm : StepSummaryRecord)
    (ic oc : Option Int) (s : Store) :
    (updateStepSummary stepId sm ic oc (updateStepSummary stepId sm ic oc s).2).2 =
      (updateStepSummary stepId sm ic oc s).2 := by
  have hI : insertOnConflictUpdate stepId (summaryInsertRow sm) (fun _old => summaryInsertRow sm)
      (insertOnConflictUpdate stepId (summaryInsertRow sm) (fun _old => summaryInsertRow sm) s.step_summaries) =
      insertOnConflictUpdate stepId (summaryInsertRow sm) (fun _old => summaryInsertRow sm) s.step_summaries :=
    insertOnConflictUpdate_idem stepId (summaryInsertRow sm)
      (fun _old => summaryInsertRow sm) (fun v => rfl) rfl s.step_summaries
  cases hfk : containsKey stepId s.steps with
  | false =>
      rw [updateStepSummary_fk_fail stepId sm ic oc s hfk]
      dsimp only
      rw [updateStepSummary_fk_fail stepId sm ic oc s hfk]
  | true =>
      by_cases hio : ic.isSome ∨ oc.isSome
      · have hA : aupdate stepId (stepCountsUpdate ic oc)
            (aupdate stepId (stepCountsUpdate ic oc) s.steps) =
            aupdate stepId (stepCountsUpdate ic oc) s.steps := by
          rw [aupdate_comp]
          apply aupdate_congr
          intro v
          simp [stepCountsUpdate, coalesce_coalesce]
        have hfk2 : containsKey stepId
            ({ s with step_summaries := insertOnConflictUpdate stepId (summaryInsertRow sm) (fun _old => summaryInsertRow sm) s.step_summaries, steps := aupdate stepId (stepCountsUpdate ic oc) s.steps } : Store).steps = true := by
          show containsKey stepId (aupdate stepId (stepCountsUpdate ic oc) s.steps) = true
          rw [containsKey_aupdate]
          exact hfk
        rw [updateStepSummary_ok_counts stepId sm ic oc s hfk hio]
        dsimp only
        rw [updateStepSummary_ok_counts stepId sm ic oc _ hfk2 hio]
        dsimp only
        rw [hI, hA]
      · have hfk2 : containsKey stepId
            ({ s with step_summaries := insertOnConflictUpdate stepId (summaryInsertRow sm) (fun _old => summaryInsertRow sm) s.step_summaries } : Store).steps = true := hfk
        rw [updateStepSummary_ok_nocounts stepId sm ic oc s hfk hio]
        dsimp only
        rw [updateStepSummary_ok_nocounts stepId sm ic oc _ hfk2 hio]
        dsimp only
        rw [hI]

theorem createCandidate_effect_idem (c : CandidateRecord) (s : Store) :
    (createCandidate c (createCandidate c s).2).2 = (createCandidate c s).2 := by
  cases hfk : containsKey c.step_id s.steps with
  | false =>
      rw [createCandidate_fk_fail c s hfk]
      dsimp only
      rw [createCandidate_fk_fail c s hfk]
  | true =>
      by_cases hdec : c.decision = "accepted" ∨ c.decision = "rejected"
      · have hI : insertOnConflictUpdate (c.candidate_id, c.step_id) (candidateInsertRow c) (fun _old => candidateInsertRow c)
            (insertOnConflictUpdate (c.candidate_id, c.step_id) (candidateInsertRow c) (fun _old => candidateInsertRow c) s.candidates) =
            insertOnConflictUpdate (c.candidate_id, c.step_id) (candidateInsertRow c) (fun _old => candidateInsertRow c) s.candidates :=
          insertOnConflictUpdate_idem (c.candidate_id, c.step_id) (candidateInsertRow c)
            (fun _old => candidateInsertRow c) (fun v => rfl) rfl s.candidates
        have hfk2 : containsKey c.step_id
            ({ s with candidates := insertOnConflictUpdate (c.candidate_id, c.step_id) (candidateInsertRow c) (fun _old => candidateInsertRow c) s.candidates } : Store).steps = true := hfk
        rw [createCandidate_ok c s hfk hdec]
        dsimp only
        rw [createCandidate_ok c _ hfk2 hdec]
        dsimp only
        rw [hI]
      · have hdec' : c.decision ≠ "accepted" ∧ c.decision ≠ "rejected" := by
          constructor <;> intro h <;> exact hdec (by simp [h])
        rw [createCandidate_check_fail c s hfk hdec']
        dsimp only
        rw [createCandidate_check_fail c s hfk hdec']


theorem iterate_of_idem (f : Store → Store) (h : ∀ s, f (f s) = f s) (s : Store)
    (n : ℕ) : f^[n + 1] s = f s := by
  induction n with
  | zero => simp
  | succ n ih =>
      rw [Function.iterate_succ_apply', ih, h]

/-- C5: applying `upsertRun` (`createRun`), `upsertStep` (`createStep`),
`upsertStepSummary` (`updateStepSummary`) or `upsertCandidate`
(`createCandidate`) twice with the identical payload leaves the same
final state as applying it once, and replaying any number of times
changes nothing further, for every payload and every starting store. -/
theorem upsert_replay_idempotent :
    (∀ (r : RunRecord) (s : Store), createRun r (createRun r s) = createRun r s) ∧
    (∀ (p : StepRecord) (s : Store),
      (createStep p (createStep p s).2).2 = (createStep p s).2) ∧
    (∀ (stepId : String) (sm : StepSummaryRecord) (ic oc : Option Int) (s : Store),
      (updateStepSummary stepId sm ic oc (updateStepSummary stepId sm ic oc s).2).2 =
        (updateStepSummary stepId sm ic oc s).2) ∧
    (∀ (c : CandidateRecord) (s : Store),
      (createCandidate c (createCandidate c s).2).2 = (createCandidate c s).2) ∧
    (∀ (r : RunRecord) (s : Store) (n : ℕ),
      (fun s => createRun r s)^[n + 1] s = createRun r s) ∧
    (∀ (p : StepRecord) (s : Store) (n : ℕ),
      (fun s => (createStep p s).2)^[n + 1] s = (createStep p s).2) ∧
    (∀ (stepId : String) (sm : StepSummaryRecord) (ic oc : Option Int) (s : Store)
      (n : ℕ),
      (fun s => (updateStepSummary stepId sm ic oc s).2)^[n + 1] s =
        (updateStepSummary stepId sm ic oc s).2) ∧
    (∀ (c : CandidateRecord) (s : Store) (n : ℕ),
      (fun s => (createCandidate c s).2)^[n + 1] s = (createCandidate c s).2) :=
  ⟨createRun_idem,
   createStep_effect_idem,
   updateStepSummary_effect_idem,
   createCandidate_effect_idem,
   fun r s n => iterate_of_idem _ (createRun_idem r) s n,
   fun p s n => iterate_of_idem _ (createStep_effect_idem p) s n,
   fun stepId sm ic oc s n =>
     iterate_of_idem _ (updateStepSummary_effect_idem stepId sm ic oc) s n,
   fun c s n => iterate_of_idem _ (createCandidate_effect_idem c) s n⟩

theorem updateStepSummary_breakdown_numeric_only_witness :
    ∃ sm, alookup "s1"
        (processUpdateStepSummary summaryJobMixedBreakdown fixtureStore).2.step_summaries =
        some sm ∧ sm.rejected = 7 := by
  obtain ⟨⟨sm, hsm, hsum, _⟩, _, _⟩ :=
    updateStepSummary_breakdown_numeric_only summaryJobMixedBreakdown fixtureStore
      (by decide) (by decide) [("a", JsonPrim.pnum 7), ("b", JsonPrim.pstr "oops")] rfl
  exact ⟨sm, hsm, by simpa using hsum⟩

/-- The output row the high-rejection query builds from a step and its
summary. -/
theorem highRejectionRow_of_mem (threshold : Rat) (s : Store) (r : HighRejectionRow) :
    r ∈ findFilteringStepsWithHighRejectionRate threshold s ↔
      ∃ p ∈ s.steps, ∃ sm, alookup p.1 s.step_summaries = some sm ∧
        p.2.stype = "filter" ∧ sm.rejected + sm.accepted ≠ 0 ∧
        rejectionRate sm > threshold ∧
        r = ⟨p.1, p.2.run_id, p.2.name, p.2.stype, p.2.metadata, sm.rejected,
             sm.accepted, rejectionRate sm⟩ := by
  unfold findFilteringStepsWithHighRejectionRate
  rw [List.mem_insertionSort, List.mem_filterMap]
  constructor
  · rintro ⟨p, hp, hf⟩
    refine ⟨p, hp, ?_⟩
    cases hsm : alookup p.1 s.step_summaries with
    | none =>
        rw [hsm] at hf
        dsimp only at hf
        exact absurd hf (by simp)
    | some sm =>
        rw [hsm] at hf
        dsimp only at hf
        by_cases hc : p.2.stype = "filter" ∧ sm.rejected + sm.accepted ≠ 0 ∧
            rejectionRate sm > threshold
        · rw [if_pos hc] at hf
          obtain ⟨h1, h2, h3⟩ := hc
          refine ⟨sm, ?_, h1, h2, h3, (Option.some_injective _ hf).symm⟩
          rfl
        · rw [if_neg hc] at hf
          exact absurd hf (by simp)
  · rintro ⟨p, hp, sm, hsm, h1, h2, h3, hr⟩
    refine ⟨p, hp, ?_⟩
    rw [hsm]
    dsimp only
    rw [if_pos ⟨h1, h2, h3⟩, hr]

/-- C3: for every store and threshold (default 0.9 when the query
parameter is absent), the high-rejection query returns exactly the
filter-typed steps whose summary has a defined rejection rate strictly
above the threshold, ordered by that rate descending; steps of the other
three types never appear. -/
theorem highRejection_query_correct (threshold : Rat) (s : Store) :
    List.Sorted rateGE (findFilteringStepsWithHighRejectionRate threshold s) ∧
    (∀ r ∈ findFilteringStepsWithHighRejectionRate threshold s, r.stype = "filter") ∧
    (∀ r, r ∈ findFilteringStepsWithHighRejectionRate threshold s ↔
      ∃ p ∈ s.steps, ∃ sm, alookup p.1 s.step_summaries = some sm ∧
        p.2.stype = "filter" ∧ sm.rejected + sm.accepted ≠ 0 ∧
        rejectionRate sm > threshold ∧
        r = ⟨p.1, p.2.run_id, p.2.name, p.2.stype, p.2.metadata, sm.rejected,
             sm.accepted, rejectionRate sm⟩) ∧
    highRejectionRoute none s = findFilteringStepsWithHighRejectionRate ((9 : Rat) / 10) s := by
  refine ⟨?_, ?_, fun r => highRejectionRow_of_mem threshold s r, rfl⟩
  · exact List.sorted_insertionSort rateGE _
  · intro r hr
    rw [highRejectionRow_of_mem] at hr
    obtain ⟨p, hp, sm, hsm, h1, h2, h3, hr⟩ := hr
    rw [hr]
    exact h1

/-- C4: a filter step whose summary has accepted = 0 and rejected = 0
never appears in the high-rejection query result, for every store and
every threshold (zero and negative included): the zero denominator is
excluded rather than yielding a rate; concretely, a store whose only
filter step has the 0/0 summary yields an empty result at every
threshold. -/
theorem zero_denominator_excluded (threshold : Rat) (s : Store)
    (r : HighRejectionRow)
    (hr : r ∈ findFilteringStepsWithHighRejectionRate threshold s) :
    ¬(r.accepted = 0 ∧ r.rejected = 0) ∧
    (∀ t : Rat, findFilteringStepsWithHighRejectionRate t fixtureZeroSummaryStore = []) := by
  constructor
  · rw [highRejectionRow_of_mem] at hr
    obtain ⟨p, hp, sm, hsm, h1, h2, h3, hreq⟩ := hr
    rw [hreq]
    rintro ⟨ha, hb⟩
    simp only at ha hb
    exact h2 (by rw [ha, hb]; rfl)
  · intro t
    unfold findFilteringStepsWithHighRejectionRate
    have : (fixtureZeroSummaryStore.steps.filterMap (fun p =>
      match alookup p.1 fixtureZeroSummaryStore.step_summaries with
      | none => none
      | some sm =>
          if p.2.stype = "filter" ∧ sm.rejected + sm.accepted ≠ 0 ∧
             rejectionRate sm > t then
            some (⟨p.1, p.2.run_id, p.2.name, p.2.stype, p.2.metadata,
                   sm.rejected, sm.accepted, rejectionRate sm⟩ : HighRejectionRow)
          else none)) = [] := by
      show List.filterMap _ [("s1", stepRowS1)] = []
      rw [List.filterMap_cons]
      have hsm : alookup "s1" fixtureZeroSummaryStore.step_summaries =
          some ⟨0, 0, []⟩ := by decide
      rw [hsm]
      dsimp only
      rw [if_neg (by intro h; exact h.2.1 (by decide))]
      rfl
    rw [this]
    rfl

theorem zero_denominator_excluded_witness :
    ¬(((⟨"s1", "r1", "dedupe", "filter", JsonVal.jobj [], 19, 1,
        rejectionRate ⟨19, 1, []⟩⟩ : HighRejectionRow)).accepted = 0 ∧
      ((⟨"s1", "r1", "dedupe", "filter", JsonVal.jobj [], 19, 1,
        rejectionRate ⟨19, 1, []⟩⟩ : HighRejectionRow)).rejected = 0) :=
  (zero_denominator_excluded ((9 : Rat) / 10) fixtureSummaryStore _
    ((highRejectionRow_of_mem ((9 : Rat) / 10) fixtureSummaryStore _).mpr
      ⟨("s1", stepRowS1), by decide, ⟨19, 1, []⟩, by decide, by decide, by decide,
       by norm_num [rejectionRate], rfl⟩)).1

/-- C9: a `POST /steps` request that is missing step_id, run_id, name or
type, or whose type is outside {filter, rank, generate, select}, is
rejected synchronously with a 400 validation error and enqueues no job;
since the handler never touches the store, no such step can reach the
store through this endpoint. -/
theorem postSteps_rejects_invalid (b : StepPostBody)
    (h : (∀ t, b.stype = some t → stepTypeValues.contains t = false) ∨
         optStrTruthy b.step_id = false ∨ optStrTruthy b.run_id = false ∨
         optStrTruthy b.name = false) :
    postStepsRoute b = (400, none) := by
  unfold postStepsRoute
  by_cases h1 : optStrTruthy b.step_id = false ∨ optStrTruthy b.run_id = false ∨
      optStrTruthy b.name = false ∨ optStrTruthy b.stype = false
  · rw [if_pos h1]
  · rw [if_neg h1]
    rcases h with htype | h2 | h2 | h2
    · cases hb : b.stype with
      | none =>
          exact absurd (Or.inr (Or.inr (Or.inr (by rw [hb]; rfl)))) h1
      | some t =>
          have hc : stepTypeValues.contains ((some t : Option String).getD "") = false :=
            htype t hb
          rw [if_pos hc]
    · exact absurd (Or.inl h2) h1
    · exact absurd (Or.inr (Or.inl h2)) h1
    · exact absurd (Or.inr (Or.inr (Or.inl h2))) h1

theorem postSteps_rejects_invalid_witness :
    postStepsRoute badTypeStepBody = (400, none) :=
  postSteps_rejects_invalid badTypeStepBody
    (Or.inl (fun t ht => by
      have : t = "transform" := by
        have : some "transform" = some t := ht
        exact (Option.some_injective _ this).symm
      rw [this]
      decide))

theorem ensureStepExists_candidates (a b : String) (s : Store) :
    (ensureStepExists a b s).candidates = s.candidates := by
  unfold ensureStepExists
  cases h : alookup a s.steps with
  | some v => rfl
  | none =>
      cases hcb : containsKey b s.runs with
      | true => rfl
      | false => rfl

theorem bulkInsertLoop_none_candidates (cs : List CandidateRecord) (s : Store)
    (h : (bulkInsertLoop cs s).1 = none) :
    (bulkInsertLoop cs s).2.candidates = applyCandidateRows s.candidates cs := by
  induction cs generalizing s with
  | nil => rfl
  | cons c rest ih =>
      cases hfk : containsKey c.step_id s.steps with
      | false =>
          exfalso
          unfold bulkInsertLoop at h
          rw [createCandidate_fk_fail c s hfk] at h
          exact absurd h (by simp)
      | true =>
          by_cases hdec : c.decision = "accepted" ∨ c.decision = "rejected"
          · unfold bulkInsertLoop at h ⊢
            rw [createCandidate_ok c s hfk hdec] at h ⊢
            dsimp only at h ⊢
            exact ih _ h
          · exfalso
            have hdec' : c.decision ≠ "accepted" ∧ c.decision ≠ "rejected" := by
              constructor <;> intro hx <;> exact hdec (by simp [hx])
            unfold bulkInsertLoop at h
            rw [createCandidate_check_fail c s hfk hdec'] at h
            exact absurd h (by simp)

theorem bulkInsertLoop_ok (cs : List CandidateRecord) (s : Store)
    (h : ∀ c ∈ cs, containsKey c.step_id s.steps = true ∧
      (c.decision = "accepted" ∨ c.decision = "rejected")) :
    bulkInsertLoop cs s =
      (none, { s with candidates := applyCandidateRows s.candidates cs }) := by
  induction cs generalizing s with
  | nil => rfl
  | cons c rest ih =>
      obtain ⟨hfk, hdec⟩ := h c (List.mem_cons_self c rest)
      unfold bulkInsertLoop
      rw [createCandidate_ok c s hfk hdec]
      dsimp only
      rw [ih ({ s with candidates := insertOnConflictUpdate (c.candidate_id, c.step_id) (candidateInsertRow c) (fun _old => candidateInsertRow c) s.candidates } : Store)
        (fun c' hc' => h c' (List.mem_cons_of_mem c hc'))]
      rfl

theorem containsKey_applyCandidateRows_mono
    (t : List ((String × String) × CandidateRow)) (cs : List CandidateRecord)
    (key : String × String) (h : containsKey key t = true) :
    containsKey key (applyCandidateRows t cs) = true := by
  induction cs generalizing t with
  | nil => exact h
  | cons c rest ih =>
      exact ih _ (containsKey_insertOnConflictUpdate_mono _ _ _ _ _ h)

theorem containsKey_applyCandidateRows_of_mem
    (cs : List CandidateRecord) (c : CandidateRecord) (hc : c ∈ cs) :
    ∀ t, containsKey (c.candidate_id, c.step_id) (applyCandidateRows t cs) = true := by
  induction hc with
  | head as =>
      intro t
      exact containsKey_applyCandidateRows_mono
        (insertOnConflictUpdate (c.candidate_id, c.step_id) (candidateInsertRow c)
          (fun _old => candidateInsertRow c) t) as (c.candidate_id, c.step_id)
        (containsKey_insertOnConflictUpdate_self _ _ _ _)
  | tail b hmem ih =>
      intro t
      exact ih _

theorem validCandidatesOf_props (d : CreateCandidatesBulkJobData) :
    ∀ c ∈ validCandidatesOf d, c.step_id = d.step_id ∧
      (c.decision = "accepted" ∨ c.decision = "rejected") := by
  intro c hc
  unfold validCandidatesOf at hc
  rw [List.mem_map] at hc
  obtain ⟨e, he, rfl⟩ := hc
  refine ⟨rfl, ?_⟩
  rw [List.mem_filter] at he
  have hv := he.2
  unfold validBulkEntry at hv
  simp only [Bool.and_eq_true, Bool.or_eq_true, beq_iff_eq, bne_iff_ne] at hv
  exact hv.2

/-- C8: in every bulk candidate write, malformed entries (missing
candidate id, missing decision, or a decision outside
{accepted, rejected}) are discarded by validation, and the surviving
valid entries are applied as one all-or-nothing unit: the candidates
table either keeps its old contents or receives exactly all valid
entries, never a partial subset; when the step exists and the batch is
nonempty the job succeeds and every valid entry is present
afterwards. -/
theorem bulk_candidates_validated_atomic (d : CreateCandidatesBulkJobData)
    (s : Store) :
    ((processCreateCandidatesBulk d s).2.candidates = s.candidates ∨
     (processCreateCandidatesBulk d s).2.candidates =
       applyCandidateRows s.candidates (validCandidatesOf d)) ∧
    (containsKey d.step_id s.steps = true → d.candidates ≠ [] →
      (processCreateCandidatesBulk d s).1 = none ∧
      (processCreateCandidatesBulk d s).2.candidates =
        applyCandidateRows s.candidates (validCandidatesOf d) ∧
      ∀ c ∈ validCandidatesOf d,
        containsKey (c.candidate_id, c.step_id)
          (processCreateCandidatesBulk d s).2.candidates = true) := by
  have hs1c : (match d.run_id with
      | some rid => if rid = "" then s else ensureStepExists d.step_id rid s
      | none => s).candidates = s.candidates := by
    cases d.run_id with
    | none => rfl
    | some rid =>
        dsimp only
        by_cases hrid : rid = ""
        · rw [if_pos hrid]
        · rw [if_neg hrid]
          exact ensureStepExists_candidates _ _ _
  constructor
  · unfold processCreateCandidatesBulk
    by_cases hempty : d.candidates.isEmpty
    · rw [if_pos hempty]
      exact Or.inl rfl
    · rw [if_neg hempty]
      dsimp only
      by_cases hval : (validCandidatesOf d).isEmpty
      · rw [if_pos hval]
        exact Or.inl hs1c
      · rw [if_neg hval]
        unfold createCandidatesBulk
        rw [if_neg hval]
        cases hloop : bulkInsertLoop (validCandidatesOf d)
            (match d.run_id with
             | some rid => if rid = "" then s else ensureStepExists d.step_id rid s
             | none => s) with
        | mk e s2 =>
            cases e with
            | none =>
                dsimp only
                right
                have := bulkInsertLoop_none_candidates (validCandidatesOf d) _
                  (by rw [hloop])
                rw [hloop] at this
                dsimp only at this
                rw [this, hs1c]
            | some e =>
                dsimp only
                exact Or.inl hs1c
  · intro hstep hne
    have hs1 : (match d.run_id with
        | some rid => if rid = "" then s else ensureStepExists d.step_id rid s
        | none => s) = s := by
      cases d.run_id with
      | none => rfl
      | some rid =>
          dsimp only
          by_cases hrid : rid = ""
          · rw [if_pos hrid]
          · rw [if_neg hrid]
            exact ensureStepExists_of_containsKey _ _ _ hstep
    have hconds : ∀ c ∈ validCandidatesOf d, containsKey c.step_id s.steps = true ∧
        (c.decision = "accepted" ∨ c.decision = "rejected") := by
      intro c hc
      obtain ⟨hsid, hdec⟩ := validCandidatesOf_props d c hc
      exact ⟨by rw [hsid]; exact hstep, hdec⟩
    have hempty : d.candidates.isEmpty = false := by
      cases hcs : d.candidates with
      | nil => exact absurd hcs hne
      | cons a l => rfl
    unfold processCreateCandidatesBulk
    rw [if_neg (by rw [hempty]; simp)]
    dsimp only
    rw [hs1]
    by_cases hval : (validCandidatesOf d).isEmpty
    · have hvnil : validCandidatesOf d = [] := by
        cases hv : validCandidatesOf d with
        | nil => rfl
        | cons a l => rw [hv] at hval; exact absurd hval (by simp)
      rw [if_pos hval]
      refine ⟨rfl, ?_, ?_⟩
      · rw [hvnil]; rfl
      · intro c hc
        rw [hvnil] at hc
        cases hc
    · rw [if_neg hval]
      unfold createCandidatesBulk
      rw [if_neg hval]
      rw [bulkInsertLoop_ok (validCandidatesOf d) s hconds]
      dsimp only
      refine ⟨rfl, rfl, ?_⟩
      intro c hc
      exact containsKey_applyCandidateRows_of_mem _ c hc s.candidates

theorem bulk_candidates_validated_atomic_witness :
    (processCreateCandidatesBulk bulkJobFixture fixtureStore).1 = none ∧
    containsKey ("c1", "s1")
      (processCreateCandidatesBulk bulkJobFixture fixtureStore).2.candidates = true := by
  have h := (bulk_candidates_validated_atomic bulkJobFixture fixtureStore).2
    (by decide) (by decide)
  exact ⟨h.1, h.2.2 ⟨"c1", "s1", "accepted", none, none⟩ (by decide)⟩

/-- C7 counterexample: the code does not enforce terminal statuses.
From an empty store, create run `r1`, end it with status `success`, then
apply an update-run event carrying status `running`: the stored status
is `success` after the first two events and `running` after the third,
so a terminal status is reset by a reachable later event. -/
theorem terminal_status_reset_counterexample :
    runStatusOf (applyRunEvents [RunEvent.create createRunJobR1,
      RunEvent.update endRunJobR1] Store.empty) "r1" = some "success" ∧
    runStatusOf (applyRunEvents [RunEvent.create createRunJobR1,
      RunEvent.update endRunJobR1, RunEvent.update reopenRunJobR1] Store.empty) "r1" =
      some "running" := by
  constructor <;> decide

theorem applyRunEvent_terminal (runId : String) (e : RunEvent) (s : Store)
    (hterm : ∃ st, runStatusOf s runId = some st ∧ isTerminalStatus st = true)
    (hp : preservesTerminal runId e) :
    ∃ st, runStatusOf (applyRunEvent e s) runId = some st ∧
      isTerminalStatus st = true := by
  obtain ⟨st, hst, htm⟩ := hterm
  cases e with
  | create d =>
      dsimp only [applyRunEvent]
      by_cases hval : d.run_id = "" ∨ d.pipeline = "" ∨ d.started_at = ""
      · unfold processCreateRun
        rw [if_pos hval]
        exact ⟨st, hst, htm⟩
      · unfold processCreateRun
        rw [if_neg hval]
        dsimp only
        by_cases hid : d.run_id = runId
        · rcases hp hid with h | hterm2
          · exact absurd h hval
          · subst hid
            refine ⟨jsStrOr d.status "running", ?_, hterm2⟩
            simp only [runStatusOf, createRun]
            rw [alookup_insertOnConflictUpdate_self]
            cases alookup d.run_id s.runs <;> rfl
        · refine ⟨st, ?_, htm⟩
          simp only [runStatusOf, createRun]
          rw [alookup_insertOnConflictUpdate_ne d.run_id runId hid]
          exact hst
  | update d =>
      dsimp only [applyRunEvent]
      by_cases hval : d.run_id = ""
      · unfold processUpdateRun
        rw [if_pos hval]
        exact ⟨st, hst, htm⟩
      · unfold processUpdateRun
        rw [if_neg hval]
        dsimp only
        unfold updateRun
        by_cases hfals : optStrTruthy d.ended_at = false ∧ optStrTruthy d.status = false
        · rw [if_pos hfals]
          exact ⟨st, hst, htm⟩
        · rw [if_neg hfals]
          by_cases hid : d.run_id = runId
          · subst hid
            unfold runStatusOf at hst
            cases hrow : alookup d.run_id s.runs with
            | none =>
                rw [hrow] at hst
                exact absurd hst (by simp)
            | some row =>
                rw [hrow] at hst
                have hrowst : row.status = st := by
                  simpa using hst
                rcases hp rfl with hfalse | ⟨st2, hst2, hterm2⟩
                · refine ⟨st, ?_, htm⟩
                  simp only [runStatusOf]
                  rw [alookup_aupdate_self, hrow]
                  simp only [Option.map_map, Option.map]
                  simp [runUpdateApply, hfalse, hrowst]
                · have hne : st2 ≠ "" := by
                    have : st2 = "success" ∨ st2 = "error" := by
                      simpa [isTerminalStatus] using hterm2
                    rcases this with h | h <;> simp [h]
                  refine ⟨st2, ?_, hterm2⟩
                  simp only [runStatusOf]
                  rw [alookup_aupdate_self, hrow]
                  simp [runUpdateApply, hst2, optStrTruthy, hne]
          · refine ⟨st, ?_, htm⟩
            simp only [runStatusOf]
            rw [alookup_aupdate_ne d.run_id runId hid]
            exact hst

/-- C7 amended: a terminal run status persists across any further
create-run and update-run events that never write the status `running`
(or any other non-terminal status) for that run — events for other
runs, invalid events, updates carrying no status or a terminal one, and
creates carrying a terminal status.  The code does not enforce
terminality itself: as the counterexample shows, an update-run event
explicitly carrying status `running` (or a create-run replay, whose
status defaults to `running`) resets a terminal status. -/
theorem terminal_status_preserved (runId : String) (es : List RunEvent) (s : Store)
    (hterm : ∃ st, runStatusOf s runId = some st ∧ isTerminalStatus st = true)
    (hpres : ∀ e ∈ es, preservesTerminal runId e) :
    ∃ st, runStatusOf (applyRunEvents es s) runId = some st ∧
      isTerminalStatus st = true := by
  induction es generalizing s with
  | nil => exact hterm
  | cons e rest ih =>
      exact ih (applyRunEvent e s)
        (applyRunEvent_terminal runId e s hterm (hpres e (List.mem_cons_self e rest)))
        (fun e' he' => hpres e' (List.mem_cons_of_mem e he'))

theorem terminal_status_preserved_witness :
    ∃ st, runStatusOf (applyRunEvents [RunEvent.update ⟨"r1", none, some "error"⟩]
      (applyRunEvents [RunEvent.create createRunJobR1, RunEvent.update endRunJobR1]
        Store.empty)) "r1" = some st ∧ isTerminalStatus st = true := by
  apply terminal_status_preserved
  · exact ⟨"success", by decide, by decide⟩
  · intro e he
    rw [List.mem_singleton] at he
    subst he
    intro _
    exact Or.inr ⟨"error", rfl, by decide⟩

theorem alookup_insertIfAbsent_of_none {κ α : Type} [DecidableEq κ] (k : κ)
    (row : α) (l : List (κ × α)) (h : alookup k l = none) :
    alookup k (insertIfAbsent k row l) = some row := by
  unfold insertIfAbsent
  rw [if_neg (by unfold containsKey; rw [h]; simp)]
  rw [alookup_append, h]
  simp [alookup]

theorem processCreateRun_ok (d : CreateRunJobData) (s : Store)
    (h : ¬(d.run_id = "" ∨ d.pipeline = "" ∨ d.started_at = "")) :
    processCreateRun d s =
      (none, createRun ⟨d.run_id, d.pipeline, d.input, d.started_at, none, jsStrOr d.status "running"⟩ s) := by
  unfold processCreateRun
  rw [if_neg h]

/-- C1 counterexample: when the create-step job carries no pipeline
hint, processing create-step before create-run does NOT converge to the
authoritative pipeline name: the placeholder run keeps pipeline
`unknown`, because `createRun`'s conflict action overwrites only
`ended_at` and `status`. -/
theorem createStep_createRun_race_counterexample :
    (alookup "r1" (processCreateRun createRunJobR1
        (processCreateStep createStepJobNoHint "t-now" Store.empty).2).2.runs).map
      RunRow.pipeline = some "unknown" ∧
    createRunJobR1.pipeline = "pipeline-a" ∧ "unknown" ≠ "pipeline-a" := by
  refine ⟨by decide, rfl, by decide⟩

/-- C1 amended: provided the create-step job carries the pipeline hint
equal to the create-run job's pipeline name (as the SDK supplies it),
processing the create-step and create-run jobs for the same (initially
absent) run in either order converges on the claimed final state: a Run
row carrying the authoritative pipeline name and a Step row whose run
reference links it to that Run.  Without the hint, the reversed order
leaves the placeholder pipeline `unknown` (see the counterexample). -/
theorem createStep_createRun_race_with_hint (rd : CreateRunJobData)
    (sd : CreateStepJobData) (now : String) (s : Store)
    (hrun : sd.run_id = rd.run_id)
    (hhint : sd.pipeline = some rd.pipeline)
    (habsent : alookup rd.run_id s.runs = none)
    (hrid : rd.run_id ≠ "") (hpipe : rd.pipeline ≠ "") (hstart : rd.started_at ≠ "")
    (hsid : sd.step_id ≠ "") (hname : sd.name ≠ "")
    (htype : stepTypeValues.contains sd.stype = true) :
    ((alookup rd.run_id
        ((processCreateStep sd now (processCreateRun rd s).2).2).runs).map
        RunRow.pipeline = some rd.pipeline ∧
      ∃ st, alookup sd.step_id
          ((processCreateStep sd now (processCreateRun rd s).2).2).steps = some st ∧
        st.run_id = rd.run_id) ∧
    ((alookup rd.run_id
        ((processCreateRun rd (processCreateStep sd now s).2).2).runs).map
        RunRow.pipeline = some rd.pipeline ∧
      ∃ st, alookup sd.step_id
          ((processCreateRun rd (processCreateStep sd now s).2).2).steps = some st ∧
        st.run_id = rd.run_id) := by
  obtain ⟨sid, srid, sname, sstype, smeta, spipe⟩ := sd
  dsimp only at hrun hhint hsid hname htype ⊢
  subst hrun
  subst hhint
  have hvrun : ¬(rd.run_id = "" ∨ rd.pipeline = "" ∨ rd.started_at = "") := by
    rintro (h | h | h)
    exacts [hrid h, hpipe h, hstart h]
  have hstne : sstype ≠ "" := by
    intro h
    rw [h] at htype
    exact absurd htype (by decide)
  have hvstep : ¬(sid = "" ∨ rd.run_id = "" ∨ sname = "" ∨ sstype = "") := by
    rintro (h | h | h | h)
    exacts [hsid h, hrid h, hname h, hstne h]
  have htype' : stepTypeValues.contains
      (⟨sid, rd.run_id, sname, sstype, none, none,
        jsValOrEmptyObj smeta⟩ : StepRecord).stype = true := htype
  constructor
  · -- order A: create-run first, then create-step
    rw [processCreateRun_ok rd s hvrun]
    dsimp only
    have hArun : alookup rd.run_id (createRun ⟨rd.run_id, rd.pipeline, rd.input, rd.started_at, none, jsStrOr rd.status "running"⟩ s).runs =
        some (runInsertRow ⟨rd.run_id, rd.pipeline, rd.input, rd.started_at, none, jsStrOr rd.status "running"⟩) := by
      simp only [createRun]
      rw [alookup_insertOnConflictUpdate_self, habsent]
      rfl
    have hAcontains : containsKey
        (⟨sid, rd.run_id, sname, sstype, none, none,
          jsValOrEmptyObj smeta⟩ : StepRecord).run_id
        (createRun ⟨rd.run_id, rd.pipeline, rd.input, rd.started_at, none, jsStrOr rd.status "running"⟩ s).runs = true := by
      show containsKey rd.run_id _ = true
      unfold containsKey
      rw [hArun]
      rfl
    unfold processCreateStep
    rw [if_neg hvstep, if_neg (by rw [htype]; simp)]
    dsimp only
    rw [ensureRunExists_of_containsKey rd.run_id (some rd.pipeline) now _
      (by unfold containsKey; rw [hArun]; rfl)]
    rw [createStep_ok _ _ hAcontains htype']
    dsimp only
    constructor
    · rw [hArun]
      rfl
    · rw [alookup_insertOnConflictUpdate_self]
      cases alookup sid (createRun ⟨rd.run_id, rd.pipeline, rd.input, rd.started_at, none, jsStrOr rd.status "running"⟩ s).steps with
      | none => exact ⟨_, rfl, rfl⟩
      | some old => exact ⟨_, rfl, rfl⟩
  · -- order B: create-step first, then create-run
    unfold processCreateStep
    rw [if_neg hvstep, if_neg (by rw [htype]; simp)]
    dsimp only
    have hens : ensureRunExists rd.run_id (some rd.pipeline) now s =
        { s with runs := insertIfAbsent rd.run_id (placeholderRunRow (some rd.pipeline) now) s.runs } := by
      unfold ensureRunExists
      rw [habsent]
    rw [hens]
    have hBrun : alookup rd.run_id (insertIfAbsent rd.run_id (placeholderRunRow (some rd.pipeline) now) s.runs) =
        some (placeholderRunRow (some rd.pipeline) now) :=
      alookup_insertIfAbsent_of_none rd.run_id _ s.runs habsent
    have hBcontains : containsKey
        (⟨sid, rd.run_id, sname, sstype, none, none,
          jsValOrEmptyObj smeta⟩ : StepRecord).run_id
        ({ s with runs := insertIfAbsent rd.run_id (placeholderRunRow (some rd.pipeline) now) s.runs } : Store).runs = true := by
      show containsKey rd.run_id (insertIfAbsent rd.run_id (placeholderRunRow (some rd.pipeline) now) s.runs) = true
      unfold containsKey
      rw [hBrun]
      rfl
    rw [createStep_ok _ _ hBcontains htype']
    dsimp only
    rw [processCreateRun_ok rd _ hvrun]
    dsimp only
    have hplpipe : (placeholderRunRow (some rd.pipeline) now).pipeline = rd.pipeline := by
      rw [show (placeholderRunRow (some rd.pipeline) now).pipeline = jsStrOr (some rd.pipeline) "unknown" from rfl]
      simp [jsStrOr, hpipe]
    constructor
    · simp only [createRun]
      rw [alookup_insertOnConflictUpdate_self, hBrun]
      simp only [Option.elim, Option.map]
      rw [show (runConflictMerge ⟨rd.run_id, rd.pipeline, rd.input, rd.started_at, none, jsStrOr rd.status "running"⟩ (placeholderRunRow (some rd.pipeline) now)).pipeline = (placeholderRunRow (some rd.pipeline) now).pipeline from rfl]
      rw [hplpipe]
    · simp only [createRun]
      rw [alookup_insertOnConflictUpdate_self]
      cases alookup sid s.steps with
      | none => exact ⟨_, rfl, rfl⟩
      | some old => exact ⟨_, rfl, rfl⟩

theorem createStep_createRun_race_with_hint_witness :
    (alookup "r1"
        ((processCreateRun createRunJobR1
          (processCreateStep createStepJobWithHint "t-now" Store.empty).2).2).runs).map
        RunRow.pipeline = some "pipeline-a" := by
  have h := createStep_createRun_race_with_hint createRunJobR1 createStepJobWithHint
    "t-now" Store.empty rfl rfl rfl (by decide) (by decide) (by decide) (by decide)
    (by decide) (by decide)
  exact h.2.1

end XRay
